import Mathlib

/-!
Verification of the saas-ideas-manager ingestion/analysis/cleanup pipelines.

The repository consists of four Python scripts:
  insert_ideas.py   — fetch SaaS-idea candidates, LLM-gate them, insert, analyze;
  insert_jobs.py    — same pipeline for remote-job candidates (Ollama-backed gate);
  scraps.py         — an alternate job pipeline (WWR RSS / Arbeitnow / Jobicy sources);
  cleanup_ideas.py  — re-validate stored ideas and delete rejects after confirmation.

Python strings are modelled as lists of code points (`PyStr`), JSON values as the
inductive `JValue` (numbers keep their lexeme: the scripts never do numeric
arithmetic on them), Python exceptions as the `PyErr` labels of an `Except`, and
the relational tables as lists of rows with the scripts' conditional-insert
logic made explicit.  External collaborators (HTTP transport, the LLM backends,
psycopg2, xml.etree) enter only through the data they hand to the translated
code: an HTTP/LLM attempt is an `HttpAttempt`, an RSS `<item>` element is an
`RssItem`, and so on.  All string/JSON processing that the scripts perform
themselves (fence stripping, json.loads, the regex brace extraction, strip_html,
truncation, lower/strip) is translated.
-/

/-- A Python string, as its list of code points. -/
abbrev PyStr := List Char

/-- The ASCII whitespace class of Python's `str.strip()` / regex `\s`
(space, tab, newline, carriage return, vertical tab, form feed). -/
def pyWsChar (c : Char) : Bool :=
  c = ' ' || c = '\t' || c = '\n' || c = '\r' || c = '\x0b' || c = '\x0c'

/-- Python `str.strip()`: drop whitespace from both ends. -/
def pyStrip (s : PyStr) : PyStr :=
  ((s.dropWhile pyWsChar).reverse.dropWhile pyWsChar).reverse

/-- Python `str.lower()` (ASCII case mapping; the scripts' keyword data is ASCII). -/
def pyLower (s : PyStr) : PyStr := s.map Char.toLower

/-- Python `needle in haystack` substring test. -/
def containsSub (needle : PyStr) : PyStr → Bool
  | [] => needle.isEmpty
  | c :: rest => needle.isPrefixOf (c :: rest) || containsSub needle rest

/-- Python `sep.join(parts)`. -/
def pyJoin (sep : PyStr) : List PyStr → PyStr
  | [] => []
  | [p] => p
  | p :: q :: rest => p ++ sep ++ pyJoin sep (q :: rest)

/-- A decoded JSON value.  Numbers keep their source lexeme (the scripts never
compute with them, they only store or print them). -/
inductive JValue where
  | jnull
  | jbool (b : Bool)
  | jnum (lexeme : PyStr)
  | jstr (s : PyStr)
  | jarr (elems : List JValue)
  | jobj (fields : List (PyStr × JValue))

/-- Python-dict lookup on the field list of a JSON object: later duplicate keys
win, as in `json.loads` (which builds a dict). -/
def lookupLast (fs : List (PyStr × JValue)) (k : PyStr) : Option JValue :=
  fs.foldl (fun acc p => if p.1 = k then some p.2 else acc) none

/-- Python truthiness of a decoded JSON value (`if not is_idea: ...`).
A numeric lexeme is falsy when its mantissa has no nonzero digit
(`0`, `0.0`, `-0e5`, ...); `NaN`/`Infinity` are truthy. -/
def pyTruthy : JValue → Bool
  | .jnull => false
  | .jbool b => b
  | .jstr s => !s.isEmpty
  | .jarr xs => !xs.isEmpty
  | .jobj fs => !fs.isEmpty
  | .jnum l =>
    if l.any (fun c => c = 'N' || c = 'I') then true
    else (l.takeWhile (fun c => !(c = 'e' || c = 'E'))).any
      (fun c => c.isDigit && c ≠ '0')

/-! ## A JSON parser modelling Python's `json.loads`

Fuel-based recursive-descent parser for the JSON grammar that `json.loads`
accepts with default options: the four JSON whitespace characters, `null`,
`true`, `false`, numbers per the CPython `NUMBER_RE` (plus the `NaN` /
`Infinity` / `-Infinity` constants, kept as lexemes), strings with the
standard escapes, arrays and objects.  Strings reject raw control characters
(CPython `strict=True`).  The whole input must be consumed. -/

/-- JSON whitespace (the only whitespace `json.loads` skips between tokens). -/
def jsonWsChar (c : Char) : Bool :=
  c = ' ' || c = '\t' || c = '\n' || c = '\r'

def skipJsonWs (s : PyStr) : PyStr := s.dropWhile jsonWsChar

def hexVal (c : Char) : Option Nat :=
  if '0' ≤ c ∧ c ≤ '9' then some (c.toNat - '0'.toNat)
  else if 'a' ≤ c ∧ c ≤ 'f' then some (c.toNat - 'a'.toNat + 10)
  else if 'A' ≤ c ∧ c ≤ 'F' then some (c.toNat - 'A'.toNat + 10)
  else none

/-- Parse the body of a JSON string (opening quote already consumed);
returns the decoded content and the remaining input after the closing quote. -/
def parseJString : Nat → PyStr → Option (PyStr × PyStr)
  | 0, _ => none
  | _, [] => none
  | Nat.succ fuel, c :: rest =>
    if c = '"' then some ([], rest)
    else if c = '\\' then
      match rest with
      | [] => none
      | e :: rest2 =>
        if e = 'u' then
          match rest2 with
          | h1 :: h2 :: h3 :: h4 :: rest3 =>
            match hexVal h1, hexVal h2, hexVal h3, hexVal h4 with
            | some a, some b, some c3, some d =>
              match parseJString fuel rest3 with
              | some (cs, r) =>
                some (Char.ofNat (((a * 16 + b) * 16 + c3) * 16 + d) :: cs, r)
              | none => none
            | _, _, _, _ => none
          | _ => none
        else
          let dec : Option Char :=
            if e = '"' then some '"'
            else if e = '\\' then some '\\'
            else if e = '/' then some '/'
            else if e = 'b' then some '\x08'
            else if e = 'f' then some '\x0c'
            else if e = 'n' then some '\n'
            else if e = 'r' then some '\r'
            else if e = 't' then some '\t'
            else none
          match dec with
          | none => none
          | some ch =>
            match parseJString fuel rest2 with
            | some (cs, r) => some (ch :: cs, r)
            | none => none
    else if c.toNat < 0x20 then none
    else
      match parseJString fuel rest with
      | some (cs, r) => some (c :: cs, r)
      | none => none

def jsonDigits (s : PyStr) : PyStr × PyStr :=
  (s.takeWhile Char.isDigit, s.dropWhile Char.isDigit)

/-- Optional fraction part `(\.\d+)?` of the CPython number regex. -/
def jsonFracPart (s : PyStr) : PyStr × PyStr :=
  match s with
  | '.' :: r =>
    let p := jsonDigits r
    if p.1.isEmpty then ([], s) else ('.' :: p.1, p.2)
  | _ => ([], s)

/-- Optional exponent part `([eE][-+]?\d+)?` of the CPython number regex. -/
def jsonExpPart (s : PyStr) : PyStr × PyStr :=
  match s with
  | c :: r =>
    if c = 'e' || c = 'E' then
      match r with
      | sc :: r2 =>
        if sc = '+' || sc = '-' then
          let p := jsonDigits r2
          if p.1.isEmpty then ([], s) else (c :: sc :: p.1, p.2)
        else
          let p := jsonDigits r
          if p.1.isEmpty then ([], s) else (c :: p.1, p.2)
      | [] => ([], s)
    else ([], s)
  | [] => ([], s)

/-- Parse a JSON number per CPython's `NUMBER_RE`:
`(-?(?:0|[1-9]\d*))(\.\d+)?([eE][-+]?\d+)?`.  Returns lexeme and rest. -/
def parseJNumber (s : PyStr) : Option (PyStr × PyStr) :=
  let sign : PyStr × PyStr :=
    match s with
    | '-' :: r => (['-'], r)
    | _ => ([], s)
  match sign.2 with
  | [] => none
  | c :: r =>
    if c = '0' then
      let f := jsonFracPart r
      let e := jsonExpPart f.2
      some (sign.1 ++ ['0'] ++ f.1 ++ e.1, e.2)
    else if c.isDigit then
      let d := jsonDigits r
      let f := jsonFracPart d.2
      let e := jsonExpPart f.2
      some (sign.1 ++ (c :: d.1) ++ f.1 ++ e.1, e.2)
    else none

mutual

/-- Parse one JSON value (leading whitespace skipped), fuel-bounded. -/
def parseJValue : Nat → PyStr → Option (JValue × PyStr)
  | 0, _ => none
  | Nat.succ fuel, s0 =>
    match skipJsonWs s0 with
    | [] => none
    | c :: rest =>
      if c = '"' then
        match parseJString (rest.length + 1) rest with
        | some (str, r) => some (.jstr str, r)
        | none => none
      else if c = '\x7b' then
        match skipJsonWs rest with
        | '\x7d' :: r => some (.jobj [], r)
        | _ =>
          match parseJMembers fuel rest with
          | some (fs, r) => some (.jobj fs, r)
          | none => none
      else if c = '[' then
        match skipJsonWs rest with
        | ']' :: r => some (.jarr [], r)
        | _ =>
          match parseJElems fuel rest with
          | some (xs, r) => some (.jarr xs, r)
          | none => none
      else if ("null").toList.isPrefixOf (c :: rest) then
        some (.jnull, (c :: rest).drop 4)
      else if ("true").toList.isPrefixOf (c :: rest) then
        some (.jbool true, (c :: rest).drop 4)
      else if ("false").toList.isPrefixOf (c :: rest) then
        some (.jbool false, (c :: rest).drop 5)
      else
        match parseJNumber (c :: rest) with
        | some (lex, r) => some (.jnum lex, r)
        | none =>
          if ("NaN").toList.isPrefixOf (c :: rest) then
            some (.jnum ("NaN").toList, (c :: rest).drop 3)
          else if ("Infinity").toList.isPrefixOf (c :: rest) then
            some (.jnum ("Infinity").toList, (c :: rest).drop 8)
          else if ("-Infinity").toList.isPrefixOf (c :: rest) then
            some (.jnum ("-Infinity").toList, (c :: rest).drop 9)
          else none

/-- Parse the members of a nonempty JSON object (input positioned after `{`). -/
def parseJMembers : Nat → PyStr → Option (List (PyStr × JValue) × PyStr)
  | 0, _ => none
  | Nat.succ fuel, s =>
    match skipJsonWs s with
    | '"' :: rest =>
      match parseJString (rest.length + 1) rest with
      | none => none
      | some (key, r1) =>
        match skipJsonWs r1 with
        | ':' :: r2 =>
          match parseJValue fuel r2 with
          | none => none
          | some (v, r3) =>
            match skipJsonWs r3 with
            | ',' :: r4 =>
              match parseJMembers fuel r4 with
              | some (fs, r5) => some ((key, v) :: fs, r5)
              | none => none
            | '\x7d' :: r4 => some ([(key, v)], r4)
            | _ => none
        | _ => none
    | _ => none

/-- Parse the elements of a nonempty JSON array (input positioned after `[`). -/
def parseJElems : Nat → PyStr → Option (List JValue × PyStr)
  | 0, _ => none
  | Nat.succ fuel, s =>
    match parseJValue fuel s with
    | none => none
    | some (v, r1) =>
      match skipJsonWs r1 with
      | ',' :: r2 =>
        match parseJElems fuel r2 with
        | some (xs, r3) => some (v :: xs, r3)
        | none => none
      | ']' :: r2 => some ([v], r2)
      | _ => none

end

/-- Python `json.loads`: parse one value and require only whitespace after it.
`none` models a raised `json.JSONDecodeError`. -/
def jsonLoads (s : PyStr) : Option JValue :=
  match parseJValue (2 * s.length + 2) s with
  | some (v, rest) => if (skipJsonWs rest).isEmpty then some v else none
  | none => none

/-! ## Markdown-fence stripping and tolerant JSON extraction

All four scripts strip markdown fences the same way:
    if raw.startswith("```"):
        raw = raw.split("\n", 1)[1].rsplit("```", 1)[0].strip()
`split("\n", 1)[1]` raises IndexError when the text has no newline, which the
model surfaces as `none`.  The Ollama-backed gate additionally retries with a
tolerant extraction `re.search(r'\{[^{}]*\}', raw)`. -/

/-- The three-backtick fence marker. -/
def fenceMark : PyStr := ("\x60\x60\x60").toList

/-- Python `s.split("\n", 1)[1]`: the text after the first newline,
`none` when there is no newline (the subscript raises IndexError). -/
def afterFirstNewline : PyStr → Option PyStr
  | [] => none
  | c :: rest => if c = '\n' then some rest else afterFirstNewline rest

/-- Start index of the last occurrence of the fence marker, if any. -/
def lastFenceIndex : PyStr → Option Nat
  | [] => none
  | c :: rest =>
    match lastFenceIndex rest with
    | some i => some (i + 1)
    | none => if fenceMark.isPrefixOf (c :: rest) then some 0 else none

/-- Python `s.rsplit("```", 1)[0]`: everything before the last fence marker
(the whole string when there is none). -/
def beforeLastFence (s : PyStr) : PyStr :=
  match lastFenceIndex s with
  | some i => s.take i
  | none => s

/-- The scripts' fence-stripping step applied to an already-stripped reply:
`none` models the IndexError raised when a fenced reply has no newline. -/
def stripFences (raw : PyStr) : Option PyStr :=
  if fenceMark.isPrefixOf raw then
    (afterFirstNewline raw).map (fun after => pyStrip (beforeLastFence after))
  else some raw

/-- The first match of the regex `\{[^{}]*\}` (leftmost `{`, a run of
non-brace characters, then `}`), as `re.search` finds it. -/
def findBraceMatch : PyStr → Option PyStr
  | [] => none
  | c :: rest =>
    if c = '\x7b' then
      let inner := rest.takeWhile (fun d => !(d = '\x7b' || d = '\x7d'))
      match rest.dropWhile (fun d => !(d = '\x7b' || d = '\x7d')) with
      | '\x7d' :: _ => some ('\x7b' :: inner ++ ['\x7d'])
      | _ => findBraceMatch rest
    else findBraceMatch rest

/-! ## Python exceptions -/

/-- Labels for the Python exceptions the modelled code can raise. -/
inductive PyErr where
  | indexError
  | jsonDecodeError
  | keyError
  | typeError
  | attributeError
  | uniqueViolation

/-- Python `result.get(k, default)` on a decoded JSON value: attribute error
when the value is not an object (a non-dict has no `.get`). -/
def pyGet (v : JValue) (k : PyStr) (dflt : JValue) : Except PyErr JValue :=
  match v with
  | .jobj fs => .ok ((lookupLast fs k).getD dflt)
  | _ => .error .attributeError

/-- Python `value[k]` subscripting on a decoded JSON value: KeyError when the
key is absent, TypeError when the value is not an object. -/
def pyIndex (v : JValue) (k : PyStr) : Except PyErr JValue :=
  match v with
  | .jobj fs =>
    match lookupLast fs k with
    | some x => .ok x
    | none => .error .keyError
  | _ => .error .typeError

/-! ## The Ollama-backed gate (`call_ollama`)

`insert_jobs.py` and `scraps.py` contain byte-identical copies of
`call_ollama`.  One iteration of its retry loop is driven by the outcome of
the HTTP POST to the local inference server, which is external input: -/

/-- The outcome of one HTTP attempt against the Ollama endpoint.
`success` carries the `response` field of the (successfully decoded) reply
envelope; an envelope whose JSON decoding itself fails lands in `otherError`,
as any such exception is caught by the blanket `except Exception`. -/
inductive HttpAttempt where
  | timeout
  | otherError
  | badStatus
  | success (respText : PyStr)

/-- The body of one retry-loop iteration after a 200 response: strip, remove
fences, strict `json.loads`, then the tolerant `\{[^{}]*\}` extraction.
`none` means this attempt failed (all exceptions inside the loop body are
caught and turn into `continue`). -/
def processBody (respText : PyStr) : Option JValue :=
  match stripFences (pyStrip respText) with
  | none => none
  | some raw =>
    match jsonLoads raw with
    | some v => some v
    | none =>
      match findBraceMatch raw with
      | some sub => jsonLoads sub
      | none => none

/-- The fail-safe default `{"is_job": False, "reason": "LLM call failed"}`
returned when every retry fails. -/
def ollamaFailDefault : JValue :=
  .jobj [(("is_job").toList, .jbool false),
         (("reason").toList, .jstr ("LLM call failed").toList)]

/-- The retry loop of `call_ollama`: attempt `i`, then `n - 1` more attempts. -/
def callOllamaLoop (attempts : Nat → HttpAttempt) : Nat → Nat → JValue
  | _, 0 => ollamaFailDefault
  | i, Nat.succ n =>
    match attempts i with
    | .success body =>
      match processBody body with
      | some v => v
      | none => callOllamaLoop attempts (i + 1) n
    | _ => callOllamaLoop attempts (i + 1) n

/-- `call_ollama(...)` with its retry bound (`retries=2` at every call site):
a total function — no exception ever propagates out of it. -/
def call_ollama (retries : Nat) (attempts : Nat → HttpAttempt) : JValue :=
  callOllamaLoop attempts 0 retries

/-- `validate_job_with_llm` (identical in insert_jobs.py and scraps.py):
`result.get("is_job", False), result.get("reason", "")` on the gate's value.
`.get` raises AttributeError when the LLM reply decoded to a non-object. -/
def validate_job_with_llm (attempts : Nat → HttpAttempt) :
    Except PyErr (JValue × JValue) :=
  let result := call_ollama 2 attempts
  match pyGet result ("is_job").toList (.jbool false),
        pyGet result ("reason").toList (.jstr []) with
  | .ok v, .ok r => .ok (v, r)
  | .error e, _ => .error e
  | _, .error e => .error e

/-- One HTTP attempt that cannot yield a parsed JSON value: an error, timeout,
non-200 status, or a 200 body on which both parse stages fail. -/
def attemptFails : HttpAttempt → Bool
  | .success body => (processBody body).isNone
  | _ => true

/-! ## The Anthropic-backed idea gate -/

namespace InsertIdeas

/-- `validate_idea_with_llm` from insert_ideas.py, as a function of the text
block returned by the hosted LLM call: strip, remove fences, one strict
`json.loads` (no retry — a decode failure raises), then
`result.get("is_idea", False), result.get("reason", "")`. -/
def validate_idea_with_llm (reply : PyStr) : Except PyErr (JValue × JValue) :=
  match stripFences (pyStrip reply) with
  | none => .error .indexError
  | some raw =>
    match jsonLoads raw with
    | none => .error .jsonDecodeError
    | some result =>
      match pyGet result ("is_idea").toList (.jbool false),
            pyGet result ("reason").toList (.jstr []) with
      | .ok v, .ok r => .ok (v, r)
      | .error e, _ => .error e
      | _, .error e => .error e

end InsertIdeas

namespace CleanupIdeas

/-- `validate_idea_with_llm` from cleanup_ideas.py — the code is identical to
the copy in insert_ideas.py (only the model identifier in the request
differs, which is outside this function's data path). -/
def validate_idea_with_llm (reply : PyStr) : Except PyErr (JValue × JValue) :=
  InsertIdeas.validate_idea_with_llm reply

end CleanupIdeas

/-! ## `strip_html` and the source adapters

`strip_html` (identical in insert_jobs.py and scraps.py):
    if not text: return text
    clean = re.sub(r'<[^>]+>', ' ', text)
    clean = re.sub(r'\s+', ' ', clean).strip()
    return clean -/

/-- One left-to-right pass of `re.sub(r'<[^>]+>', ' ', text)`: each maximal
`<`…`>` group (at least one non-`>` character between the angle brackets)
becomes a single space. -/
def stripTags : PyStr → PyStr
  | [] => []
  | c :: rest =>
    if c = '<' then
      if (rest.takeWhile (fun x => x ≠ '>')).isEmpty then '<' :: stripTags rest
      else
        match hm : rest.dropWhile (fun x => x ≠ '>') with
        | _ :: after => ' ' :: stripTags after
        | [] => '<' :: stripTags rest
    else c :: stripTags rest
termination_by l => l.length
decreasing_by
  · simp
  · have hlen := (List.dropWhile_sublist (l := rest) (fun x => decide (x ≠ '>'))).length_le
    rw [hm] at hlen
    simp at hlen ⊢
    omega
  · simp
  · simp

/-- `re.sub(r'\s+', ' ', clean)`: collapse every whitespace run to one space. -/
def collapseWs : PyStr → PyStr
  | [] => []
  | c :: rest =>
    if pyWsChar c then ' ' :: collapseWs (rest.dropWhile pyWsChar)
    else c :: collapseWs rest
termination_by l => l.length
decreasing_by
  · have hlen := (List.dropWhile_sublist (l := rest) pyWsChar).length_le
    simp at hlen ⊢
    omega
  · simp

/-- `strip_html` from insert_jobs.py / scraps.py. -/
def strip_html (text : PyStr) : PyStr :=
  if text.isEmpty then text
  else pyStrip (collapseWs (stripTags text))

/-- The `jobs` table row shape shared by insert_jobs.py and scraps.py
(`id` surrogate key and `date_found` default are assigned by the store and
play no role in the claims). -/
structure Job where
  title : PyStr
  company : Option PyStr
  description : PyStr
  salary : Option PyStr
  job_type : Option PyStr
  location : PyStr
  source : PyStr
  url : PyStr

namespace InsertJobs

/-- One entry of the Remotive API's `jobs` array, restricted to the fields
`parse_remotive_jobs` reads (each `.get(..., default)` makes the field total). -/
structure RemotiveItem where
  title : PyStr
  company_name : PyStr
  description : PyStr
  salary : PyStr
  job_type : PyStr
  candidate_required_location : PyStr
  url : PyStr

/-- `parse_remotive_jobs` from insert_jobs.py: first 25 entries, HTML-stripped
description — note: no truncation is applied here. -/
def parse_remotive_jobs (items : List RemotiveItem) : List Job :=
  (items.take 25).map fun j =>
    { title := j.title
      company := some j.company_name
      description := strip_html j.description
      salary := some j.salary
      job_type := some j.job_type
      location := j.candidate_required_location
      source := ("Remotive").toList
      url := j.url }

/-- One entry of the RemoteOK API array, restricted to the fields
`parse_remoteok_jobs` reads.  `salary_min`/`salary_max` keep the printed form
of the API's numbers; `salary_min = none` models a missing or falsy value. -/
structure RemoteokItem where
  tags : List PyStr
  position : PyStr
  company : PyStr
  description : PyStr
  salary_min : Option PyStr
  salary_max : Option PyStr
  location : PyStr
  url : PyStr

/-- The fixed `tech_tags` allow-list of `parse_remoteok_jobs`. -/
def tech_tags : List PyStr :=
  [("dev").toList, ("engineer").toList, ("engineering").toList,
   ("backend").toList, ("frontend").toList, ("fullstack").toList,
   ("devops").toList, ("cloud").toList, ("python").toList,
   ("javascript").toList, ("golang").toList, ("rust").toList,
   ("java").toList, ("react").toList, ("node").toList, ("aws").toList,
   ("azure").toList, ("gcp").toList, ("kubernetes").toList,
   ("docker").toList, ("sre").toList, ("infra").toList, ("data").toList,
   ("ml").toList, ("ai").toList, ("security").toList,
   ("devsecops").toList, ("software").toList, ("senior").toList,
   ("lead").toList, ("architect").toList, ("mobile").toList,
   ("ios").toList, ("android").toList]

/-- The per-entry step of `parse_remoteok_jobs`.  `none` as input models an
array entry that is not a dict or has no `id` key (skipped); a dict whose
tags are nonempty and all outside the allow-list is skipped. -/
def remoteokConvert (entry : Option RemoteokItem) : Option Job :=
  match entry with
  | none => none
  | some job =>
    if !job.tags.isEmpty && !(job.tags.any fun t => tech_tags.contains (pyLower t)) then
      none
    else
      some
        { title := job.position
          company := some job.company
          description := strip_html job.description
          salary := some (match job.salary_min with
            | some mn => mn ++ '-' :: (job.salary_max.getD [])
            | none => [])
          job_type := none
          location := job.location
          source := ("RemoteOK").toList
          url := job.url }

/-- `parse_remoteok_jobs` from insert_jobs.py: first 25 entries through the
tag pre-filter. -/
def parse_remoteok_jobs (data : List (Option RemoteokItem)) : List Job :=
  (data.take 25).filterMap remoteokConvert

end InsertJobs

namespace Scraps

/-- One `<item>` element of the We Work Remotely RSS feed as
`xml.etree` hands it to `parse_wwr_rss`: `findtext` results already
defaulted to `''`, and the optional `content:encoded` child's text. -/
structure RssItem where
  title : PyStr
  link : PyStr
  description : PyStr
  content_encoded : Option PyStr

/-- Python `raw_title.split(':', 1)` when a colon is present. -/
def splitFirstColon : PyStr → Option (PyStr × PyStr)
  | [] => none
  | c :: rest =>
    if c = ':' then some ([], rest)
    else (splitFirstColon rest).map (fun p => (c :: p.1, p.2))

/-- The body text `parse_wwr_rss` strips: the `content:encoded` text when the
element is present, the plain description otherwise. -/
def wwrBody (item : RssItem) : PyStr :=
  match item.content_encoded with
  | some c => c
  | none => item.description

/-- The per-item step of `parse_wwr_rss`: split `"Company: Role"` titles on
the first colon, skip empty titles, truncate the stripped body to 2000. -/
def wwrConvert (item : RssItem) : Option Job :=
  let raw_title := pyStrip item.title
  let link := pyStrip item.link
  let body := strip_html (wwrBody item)
  let ct : Option PyStr × PyStr :=
    match splitFirstColon raw_title with
    | some (c, t) => (some (pyStrip c), pyStrip t)
    | none => (none, raw_title)
  if ct.2.isEmpty then none
  else
    some
      { title := ct.2
        company := ct.1
        description := body.take 2000
        salary := none
        job_type := some ("full-time").toList
        location := ("Remote").toList
        source := ("We Work Remotely").toList
        url := link }

/-- `parse_wwr_rss` from scraps.py, over the feed's item list. -/
def parse_wwr_rss (items : List RssItem) : List Job :=
  items.filterMap wwrConvert

/-- One entry of the Arbeitnow API's `data` array, restricted to the fields
`parse_arbeitnow` reads. -/
structure ArbeitnowItem where
  remote : Bool
  tags : List PyStr
  title : PyStr
  company_name : PyStr
  description : PyStr
  job_types : List PyStr
  location : PyStr
  url : PyStr

/-- The fixed `tech_keywords` allow-list of `parse_arbeitnow`. -/
def tech_keywords : List PyStr :=
  [("developer").toList, ("engineer").toList, ("engineering").toList,
   ("backend").toList, ("frontend").toList, ("fullstack").toList,
   ("devops").toList, ("cloud").toList, ("python").toList,
   ("javascript").toList, ("golang").toList, ("rust").toList,
   ("java").toList, ("react").toList, ("node").toList, ("aws").toList,
   ("azure").toList, ("gcp").toList, ("kubernetes").toList,
   ("docker").toList, ("sre").toList, ("infrastructure").toList,
   ("data").toList, ("ml").toList, ("ai").toList, ("security").toList,
   ("mobile").toList, ("ios").toList, ("android").toList,
   ("architect").toList, ("lead").toList]

/-- The per-entry step of `parse_arbeitnow`: keep remote-flagged entries whose
lowercased title or space-joined lowercased tags contain some allow-listed
keyword as a substring; truncate the stripped description to 2000. -/
def arbeitnowConvert (job : ArbeitnowItem) : Option Job :=
  if !job.remote then none
  else
    let title_lower := pyLower job.title
    let tag_lower := pyLower (pyJoin [' '] job.tags)
    if !(tech_keywords.any fun kw =>
          containsSub kw title_lower || containsSub kw tag_lower) then none
    else
      some
        { title := job.title
          company := some job.company_name
          description := (strip_html job.description).take 2000
          salary := none
          job_type :=
            (if (pyJoin (", ").toList job.job_types).isEmpty then none
             else some (pyJoin (", ").toList job.job_types))
          location := job.location
          source := ("Arbeitnow").toList
          url := job.url }

/-- `parse_arbeitnow` from scraps.py: first 25 entries through the
remote flag and keyword pre-filter. -/
def parse_arbeitnow (data : List ArbeitnowItem) : List Job :=
  (data.take 25).filterMap arbeitnowConvert

end Scraps

/-! ## The Store: conditional inserts and ingestion loops

Rows are modelled as the candidate structures themselves (the INSERT column
lists are fixed bijective renamings of the candidate dict's fields — e.g.
`ideas.idea` stores the candidate's `title`).  A table is the list of its
rows in insertion order. -/

/-- A candidate produced by insert_ideas.py's source adapters
(`parse_reddit_response` / `parse_hacker_news_response`), which is also the
column shape of the `ideas` table written by `insert_idea`. -/
structure Idea where
  title : PyStr
  description : PyStr
  difficulty : Option PyStr
  effort_est : Option PyStr
  monetization : Option PyStr
  source : PyStr
  date_found : Option PyStr
  notes : Option PyStr

namespace InsertIdeas

/-- `insert_idea` from insert_ideas.py: `SELECT COUNT(*) ... WHERE idea = %s`,
insert only when the count is zero; returns the new table and the inserted
flag. -/
def insert_idea (db : List Idea) (idea : Idea) : List Idea × Bool :=
  if (db.filter fun r => decide (r.title = idea.title)).length = 0 then
    (db ++ [idea], true)
  else (db, false)

/-- One iteration of the `fetch_and_insert_ideas` per-candidate loop, as a
function of the gate call's outcome: a raised exception skips the candidate,
a falsy `is_idea` rejects it, otherwise `insert_idea` runs. -/
def ideaIngestStep (db : List Idea) (c : Idea)
    (g : Except PyErr (JValue × JValue)) : List Idea :=
  match g with
  | .error _ => db
  | .ok (v, _) => if pyTruthy v then (insert_idea db c).1 else db

/-- A full pass of the `fetch_and_insert_ideas` loop over one source's
candidates, each paired with its gate outcome. -/
def runIngestIdeas (db : List Idea)
    (l : List (Idea × Except PyErr (JValue × JValue))) : List Idea :=
  l.foldl (fun d p => ideaIngestStep d p.1 p.2) db

end InsertIdeas

namespace InsertJobs

/-- `insert_job` from insert_jobs.py: existence check on `title` alone. -/
def insert_job (db : List Job) (job : Job) : List Job × Bool :=
  if (db.filter fun r => decide (r.title = job.title)).length = 0 then
    (db ++ [job], true)
  else (db, false)

/-- One iteration of the `fetch_and_insert_jobs` per-candidate loop of
insert_jobs.py, as a function of the gate outcome. -/
def jobIngestStep (db : List Job) (c : Job)
    (g : Except PyErr (JValue × JValue)) : List Job :=
  match g with
  | .error _ => db
  | .ok (v, _) => if pyTruthy v then (insert_job db c).1 else db

/-- A full pass of insert_jobs.py's ingestion loop over one source's
candidates, each paired with its gate outcome. -/
def runIngestJobs (db : List Job)
    (l : List (Job × Except PyErr (JValue × JValue))) : List Job :=
  l.foldl (fun d p => jobIngestStep d p.1 p.2) db

end InsertJobs

namespace Scraps

/-- `insert_job` from scraps.py: existence check on
`title = %s AND company IS NOT DISTINCT FROM %s` — the null-safe natural key
`(title, company)`, where two NULL companies compare equal. -/
def insert_job (db : List Job) (job : Job) : List Job × Bool :=
  if (db.filter fun r =>
        decide (r.title = job.title ∧ r.company = job.company)).length > 0 then
    (db, false)
  else (db ++ [job], true)

/-- One iteration of the `fetch_and_insert_jobs` per-candidate loop of
scraps.py: a falsy title is rejected before the gate; then a raised gate
exception skips, a falsy verdict rejects, otherwise `insert_job` runs
(whose own exceptions are caught per item — it raises none here). -/
def scrapsIngestStep (db : List Job) (c : Job)
    (g : Except PyErr (JValue × JValue)) : List Job :=
  if c.title.isEmpty then db
  else
    match g with
    | .error _ => db
    | .ok (v, _) => if pyTruthy v then (insert_job db c).1 else db

/-- A full pass of scraps.py's ingestion loop over one source's candidates,
each paired with its gate outcome. -/
def runIngestScraps (db : List Job)
    (l : List (Job × Except PyErr (JValue × JValue))) : List Job :=
  l.foldl (fun d p => scrapsIngestStep d p.1 p.2) db

end Scraps

/-! ## The Enricher attach steps

An analysis row is its record's id paired with the extracted column values in
the column order of the INSERT statement.  `extractRequired` models the
left-to-right evaluation of the INSERT parameter tuple built with
`analysis['key']` subscripts (insert_ideas.py, insert_jobs.py);
`pyGetAll` models the `.get`-based tuple of scraps.py. -/

/-- Evaluate `analysis[k]` for each key in order; the first missing key
raises KeyError (TypeError when the decoded reply is not an object). -/
def extractRequired (a : JValue) : List PyStr → Except PyErr (List JValue)
  | [] => .ok []
  | k :: ks =>
    match pyIndex a k with
    | .error e => .error e
    | .ok v =>
      match extractRequired a ks with
      | .error e => .error e
      | .ok vs => .ok (v :: vs)

/-- Evaluate `analysis.get(k)` for each key in order: missing keys yield
`None`; a non-object reply raises AttributeError. -/
def pyGetAll (a : JValue) (keys : List PyStr) :
    Except PyErr (List (Option JValue)) :=
  match a with
  | .jobj fs => .ok (keys.map fun k => lookupLast fs k)
  | _ => .error .attributeError

/-- The analysis columns of `idea_analysis`, in the INSERT's order. -/
def requiredIdeaKeys : List PyStr :=
  [("summary").toList, ("feasibility_score").toList,
   ("market_potential_score").toList, ("effort_score").toList,
   ("overall_score").toList, ("monetization_suggestion").toList,
   ("strengths").toList, ("weaknesses").toList, ("verdict").toList,
   ("llm_opinion").toList]

/-- The analysis columns of `job_analysis`, in the INSERT's order. -/
def requiredJobKeys : List PyStr :=
  [("summary").toList, ("relevance_score").toList,
   ("seniority_level").toList, ("skills").toList, ("strengths").toList,
   ("weaknesses").toList, ("verdict").toList, ("llm_opinion").toList]

namespace InsertIdeas

/-- The plain `INSERT INTO idea_analysis ...` of insert_ideas.py under the
table's `UNIQUE(idea_id)` constraint: a conflicting insert raises a
unique-constraint violation. -/
def idea_analysis_insert (db : List (Nat × List JValue))
    (row : Nat × List JValue) : Except PyErr (List (Nat × List JValue)) :=
  if db.any fun r => decide (r.1 = row.1) then .error .uniqueViolation
  else .ok (db ++ [row])

/-- The field-extraction plus INSERT of one `analyze_ideas` iteration, on the
already-decoded analysis value. -/
def ideasAttach (db : List (Nat × List JValue)) (idea_id : Nat) (a : JValue) :
    Except PyErr (List (Nat × List JValue)) :=
  match extractRequired a requiredIdeaKeys with
  | .error e => .error e
  | .ok vs => idea_analysis_insert db (idea_id, vs)

/-- One iteration of the `analyze_ideas` loop, as a function of the outcome of
`analyze_idea_with_llm` (which raises on an empty or unparseable reply): any
exception in the unit of work is caught, the transaction rolled back, and the
loop continues — the table is returned unchanged. -/
def analyze_ideas_step (db : List (Nat × List JValue)) (idea_id : Nat)
    (res : Except PyErr JValue) : List (Nat × List JValue) :=
  match res with
  | .error _ => db
  | .ok a =>
    match ideasAttach db idea_id a with
    | .error _ => db
    | .ok db2 => db2

end InsertIdeas

namespace InsertJobs

/-- The plain `INSERT INTO job_analysis ...` of insert_jobs.py under
`UNIQUE(job_id)`: a conflicting insert raises. -/
def job_analysis_insert (db : List (Nat × List JValue))
    (row : Nat × List JValue) : Except PyErr (List (Nat × List JValue)) :=
  if db.any fun r => decide (r.1 = row.1) then .error .uniqueViolation
  else .ok (db ++ [row])

/-- The field-extraction plus INSERT of one `analyze_jobs` iteration of
insert_jobs.py, on the value `call_ollama` returned. -/
def jobsAttach (db : List (Nat × List JValue)) (job_id : Nat) (a : JValue) :
    Except PyErr (List (Nat × List JValue)) :=
  match extractRequired a requiredJobKeys with
  | .error e => .error e
  | .ok vs => job_analysis_insert db (job_id, vs)

/-- One iteration of insert_jobs.py's `analyze_jobs` loop.
`analyze_job_with_llm` is `call_ollama` on the analysis prompt — a total
call — and the try/except around extraction and INSERT rolls back and skips
on any exception. -/
def analyze_jobs_step (db : List (Nat × List JValue)) (job_id : Nat)
    (attempts : Nat → HttpAttempt) : List (Nat × List JValue) :=
  match jobsAttach db job_id (call_ollama 2 attempts) with
  | .error _ => db
  | .ok db2 => db2

end InsertJobs

namespace Scraps

/-- The `INSERT ... ON CONFLICT (job_id) DO NOTHING` of scraps.py's
`analyze_jobs`: a conflicting insert is a no-op, never an error. -/
def job_analysis_insert (db : List (Nat × List (Option JValue)))
    (row : Nat × List (Option JValue)) : List (Nat × List (Option JValue)) :=
  if db.any fun r => decide (r.1 = row.1) then db
  else db ++ [row]

/-- The `.get`-based extraction plus conflict-free INSERT of one
`analyze_jobs` iteration of scraps.py, on the value `call_ollama` returned:
missing analysis keys become NULL columns. -/
def scrapsAttach (db : List (Nat × List (Option JValue))) (job_id : Nat)
    (a : JValue) : List (Nat × List (Option JValue)) :=
  match pyGetAll a requiredJobKeys with
  | .error _ => db
  | .ok vs => job_analysis_insert db (job_id, vs)

/-- One iteration of scraps.py's `analyze_jobs` loop: `analyze_job_with_llm`
is a total `call_ollama` call (the `[ANALYSIS ERROR]` handler is dead code on
this path), and the save block catches the only possible exception, the
AttributeError of `.get` on a non-object reply. -/
def analyze_jobs_step (db : List (Nat × List (Option JValue))) (job_id : Nat)
    (attempts : Nat → HttpAttempt) : List (Nat × List (Option JValue)) :=
  scrapsAttach db job_id (call_ollama 2 attempts)

end Scraps

/-- The `select_unanalyzed` anti-join (`LEFT JOIN ... WHERE a.id IS NULL`) of
the analyze flows, on the id columns: the record ids with no analysis row. -/
def select_unanalyzed (recordIds : List Nat) (analysisIds : List Nat) :
    List Nat :=
  recordIds.filter fun i => !(analysisIds.contains i)

/-! ## The cleanup pass (cleanup_ideas.py) -/

namespace CleanupIdeas

/-- One iteration of the cleanup validation loop, folding the `to_delete`
accumulator over `(idea_id, gate outcome)` pairs: an exception keeps the row
(`continue`), a falsy verdict appends the id to `to_delete`. -/
def cleanupStep (acc : List Nat)
    (item : Nat × Except PyErr (JValue × JValue)) : List Nat :=
  match item.2 with
  | .error _ => acc
  | .ok (v, _) => if pyTruthy v then acc else acc ++ [item.1]

/-- The collected `to_delete` set after the whole validation loop. -/
def cleanupCollect (l : List (Nat × Except PyErr (JValue × JValue))) :
    List Nat :=
  l.foldl cleanupStep []

/-- `DELETE FROM ideas WHERE id = ANY(%s)` over a table keyed by id. -/
def deleteIds (db : List (Nat × Idea)) (ids : List Nat) : List (Nat × Idea) :=
  db.filter fun r => !(ids.contains r.1)

/-- The confirmation-guarded deletion at the end of cleanup_ideas.py:
with an empty `to_delete` nothing is asked and nothing deleted; otherwise the
single `DELETE ... = ANY(...)` transaction runs only when the operator's
input, stripped and lowercased, is exactly `yes`. -/
def cleanupFinal (db : List (Nat × Idea)) (toDelete : List Nat)
    (confirm : PyStr) : List (Nat × Idea) :=
  if toDelete.isEmpty then db
  else if pyLower (pyStrip confirm) = ("yes").toList then deleteIds db toDelete
  else db

end CleanupIdeas

/-! ## Generic conditional-insert machinery

All three ingestion loops are instances of one scheme: a per-item accept
decision that depends only on the item and its gate outcome, followed by a
conditional insert keyed by a natural key.  The idempotence proof is done
once over this scheme and transported to the three loops. -/

/-- Conditional insert by natural key: insert only when no stored row has the
candidate's key. -/
def insertByKey {ρ κ : Type} [DecidableEq κ] (key : ρ → κ)
    (db : List ρ) (r : ρ) : List ρ × Bool :=
  if (db.filter fun x => decide (key x = key r)).length = 0 then
    (db ++ [r], true)
  else (db, false)

/-- One generic ingestion step: insert the item's candidate iff the item is
accepted. -/
def genStep {ρ κ ι : Type} [DecidableEq κ] (key : ρ → κ) (itm : ι → ρ)
    (acc : ι → Bool) (db : List ρ) (i : ι) : List ρ :=
  if acc i then (insertByKey key db (itm i)).1 else db

/-- A generic ingestion pass. -/
def genRun {ρ κ ι : Type} [DecidableEq κ] (key : ρ → κ) (itm : ι → ρ)
    (acc : ι → Bool) (db : List ρ) (l : List ι) : List ρ :=
  l.foldl (genStep key itm acc) db

theorem insertByKey_noop {ρ κ : Type} [DecidableEq κ] (key : ρ → κ)
    (db : List ρ) (r : ρ) (h : key r ∈ db.map key) :
    insertByKey key db r = (db, false) := by
  obtain ⟨x, hx, hk⟩ := List.mem_map.mp h
  unfold insertByKey
  rw [if_neg]
  intro hlen
  rw [List.length_eq_zero] at hlen
  have := List.filter_eq_nil_iff.mp hlen x hx
  simp [hk] at this

theorem key_mem_insertByKey {ρ κ : Type} [DecidableEq κ] (key : ρ → κ)
    (db : List ρ) (r : ρ) : key r ∈ ((insertByKey key db r).1).map key := by
  unfold insertByKey
  by_cases h : (db.filter fun x => decide (key x = key r)).length = 0
  · rw [if_pos h]
    simp
  · rw [if_neg h]
    have hne : db.filter (fun x => decide (key x = key r)) ≠ [] := by
      intro hnil
      exact h (by rw [hnil]; rfl)
    obtain ⟨x, hx⟩ := List.exists_mem_of_ne_nil _ hne
    have hmem := List.mem_filter.mp hx
    have hk : key x = key r := by simpa using hmem.2
    exact hk ▸ List.mem_map_of_mem key hmem.1

theorem genStep_keys_mono {ρ κ ι : Type} [DecidableEq κ] (key : ρ → κ)
    (itm : ι → ρ) (acc : ι → Bool) (db : List ρ) (i : ι) (k : κ)
    (h : k ∈ db.map key) : k ∈ (genStep key itm acc db i).map key := by
  unfold genStep
  by_cases ha : acc i
  · rw [if_pos ha]
    unfold insertByKey
    by_cases hl : (db.filter fun x => decide (key x = key (itm i))).length = 0
    · rw [if_pos hl]
      show k ∈ (db ++ [itm i]).map key
      rw [List.map_append]
      exact List.mem_append_left _ h
    · rw [if_neg hl]; exact h
  · rw [if_neg ha]; exact h

theorem genRun_keys_mono {ρ κ ι : Type} [DecidableEq κ] (key : ρ → κ)
    (itm : ι → ρ) (acc : ι → Bool) (l : List ι) :
    ∀ (db : List ρ) (k : κ), k ∈ db.map key →
      k ∈ (genRun key itm acc db l).map key := by
  induction l with
  | nil => intro db k h; exact h
  | cons i rest ih =>
    intro db k h
    exact ih _ k (genStep_keys_mono key itm acc db i k h)

theorem genRun_covers {ρ κ ι : Type} [DecidableEq κ] (key : ρ → κ)
    (itm : ι → ρ) (acc : ι → Bool) (l : List ι) :
    ∀ (db : List ρ) (i : ι), i ∈ l → acc i = true →
      key (itm i) ∈ (genRun key itm acc db l).map key := by
  induction l with
  | nil => intro db i h; simp at h
  | cons j rest ih =>
    intro db i hmem hacc
    rcases List.mem_cons.mp hmem with heq | htail
    · subst heq
      show key (itm i) ∈
        (genRun key itm acc (genStep key itm acc db i) rest).map key
      apply genRun_keys_mono
      unfold genStep
      rw [if_pos hacc]
      exact key_mem_insertByKey key db (itm i)
    · exact ih _ i htail hacc

theorem genRun_noop {ρ κ ι : Type} [DecidableEq κ] (key : ρ → κ)
    (itm : ι → ρ) (acc : ι → Bool) (l : List ι) :
    ∀ db : List ρ, (∀ i ∈ l, acc i = true → key (itm i) ∈ db.map key) →
      genRun key itm acc db l = db := by
  induction l with
  | nil => intro db _; rfl
  | cons j rest ih =>
    intro db h
    have hstep : genStep key itm acc db j = db := by
      unfold genStep
      by_cases ha : acc j
      · rw [if_pos ha, insertByKey_noop key db (itm j) (h j (by simp) ha)]
      · rw [if_neg ha]
    show genRun key itm acc (genStep key itm acc db j) rest = db
    rw [hstep]
    exact ih db (fun i hi hacc => h i (List.mem_cons_of_mem j hi) hacc)

/-- Generic ingestion idempotence: a second pass over the same items and
outcomes changes nothing. -/
theorem genRun_idem {ρ κ ι : Type} [DecidableEq κ] (key : ρ → κ)
    (itm : ι → ρ) (acc : ι → Bool) (db : List ρ) (l : List ι) :
    genRun key itm acc (genRun key itm acc db l) l =
      genRun key itm acc db l :=
  genRun_noop key itm acc l _ (fun i hi hacc => genRun_covers key itm acc l db i hi hacc)

/-- foldl respects pointwise-equal step functions. -/
theorem foldl_congr_fun {α β : Type} {f g : α → β → α}
    (h : ∀ d p, f d p = g d p) :
    ∀ (l : List β) (d : α), l.foldl f d = l.foldl g d := by
  intro l
  induction l with
  | nil => intro d; rfl
  | cons p rest ih => intro d; simp only [List.foldl_cons, h]; exact ih _

/-- The accept decision of insert_ideas.py / insert_jobs.py ingestion items:
a raised gate exception or a falsy verdict rejects. -/
def gateAccept {ρ : Type} (p : ρ × Except PyErr (JValue × JValue)) : Bool :=
  match p.2 with
  | .ok (v, _) => pyTruthy v
  | .error _ => false

/-- The accept decision of scraps.py ingestion items: additionally rejects a
falsy title before the gate. -/
def scrapsAccept (p : Job × Except PyErr (JValue × JValue)) : Bool :=
  !p.1.title.isEmpty && gateAccept p

theorem ideaIngestStep_eq_genStep (db : List Idea)
    (p : Idea × Except PyErr (JValue × JValue)) :
    InsertIdeas.ideaIngestStep db p.1 p.2 =
      genStep (fun r : Idea => r.title) Prod.fst gateAccept db p := by
  obtain ⟨c, g⟩ := p
  match g with
  | .error e => rfl
  | .ok (v, r) =>
    show (if pyTruthy v then (InsertIdeas.insert_idea db c).1 else db) = _
    unfold genStep gateAccept
    by_cases h : pyTruthy v
    · rw [if_pos h]; simp only [h]; rfl
    · rw [if_neg h]; simp only [h]; rfl

theorem jobIngestStep_eq_genStep (db : List Job)
    (p : Job × Except PyErr (JValue × JValue)) :
    InsertJobs.jobIngestStep db p.1 p.2 =
      genStep (fun r : Job => r.title) Prod.fst gateAccept db p := by
  obtain ⟨c, g⟩ := p
  match g with
  | .error e => rfl
  | .ok (v, r) =>
    show (if pyTruthy v then (InsertJobs.insert_job db c).1 else db) = _
    unfold genStep gateAccept
    by_cases h : pyTruthy v
    · rw [if_pos h]; simp only [h]; rfl
    · rw [if_neg h]; simp only [h]; rfl

theorem scraps_insert_eq_insertByKey (db : List Job) (job : Job) :
    Scraps.insert_job db job =
      insertByKey (fun r : Job => (r.title, r.company)) db job := by
  have hfe : (fun x : Job =>
        decide ((x.title, x.company) = (job.title, job.company)))
      = (fun r : Job =>
        decide (r.title = job.title ∧ r.company = job.company)) := by
    funext r
    simp only [decide_eq_decide, Prod.mk.injEq]
  simp only [Scraps.insert_job, insertByKey]
  rw [hfe]
  rcases Nat.eq_zero_or_pos
      (db.filter fun r =>
        decide (r.title = job.title ∧ r.company = job.company)).length with
    h | h
  · rw [if_neg (by omega), if_pos h]
  · rw [if_pos h, if_neg (by omega)]

theorem scrapsIngestStep_eq_genStep (db : List Job)
    (p : Job × Except PyErr (JValue × JValue)) :
    Scraps.scrapsIngestStep db p.1 p.2 =
      genStep (fun r : Job => (r.title, r.company)) Prod.fst scrapsAccept db p := by
  obtain ⟨c, g⟩ := p
  unfold Scraps.scrapsIngestStep genStep scrapsAccept gateAccept
  by_cases ht : c.title.isEmpty
  · simp only [ht, if_pos rfl]
    simp
  · simp only [ht]
    rw [if_neg (by simp)]
    match g with
    | .error e => simp
    | .ok (v, r) =>
      by_cases h : pyTruthy v
      · simp only [h]
        simp [scraps_insert_eq_insertByKey]
      · simp [h]

theorem runIngestIdeas_eq_genRun (db : List Idea)
    (l : List (Idea × Except PyErr (JValue × JValue))) :
    InsertIdeas.runIngestIdeas db l =
      genRun (fun r : Idea => r.title) Prod.fst gateAccept db l :=
  foldl_congr_fun (fun d p => ideaIngestStep_eq_genStep d p) l db

theorem runIngestJobs_eq_genRun (db : List Job)
    (l : List (Job × Except PyErr (JValue × JValue))) :
    InsertJobs.runIngestJobs db l =
      genRun (fun r : Job => r.title) Prod.fst gateAccept db l :=
  foldl_congr_fun (fun d p => jobIngestStep_eq_genStep d p) l db

theorem runIngestScraps_eq_genRun (db : List Job)
    (l : List (Job × Except PyErr (JValue × JValue))) :
    Scraps.runIngestScraps db l =
      genRun (fun r : Job => (r.title, r.company)) Prod.fst scrapsAccept db l :=
  foldl_congr_fun (fun d p => scrapsIngestStep_eq_genStep d p) l db

/-- C2 — Ingestion idempotence: for a fixed source snapshot and fixed gate
verdicts (each candidate paired with its gate outcome), running the ingest
loop a second time inserts zero additional rows, in all three pipelines:
insert_ideas.py (natural key: title), insert_jobs.py (title), and scraps.py
(null-safe (title, company)). -/
theorem c2_ingest_idempotent :
    (∀ (db : List Idea) (l : List (Idea × Except PyErr (JValue × JValue))),
      InsertIdeas.runIngestIdeas (InsertIdeas.runIngestIdeas db l) l =
        InsertIdeas.runIngestIdeas db l) ∧
    (∀ (db : List Job) (l : List (Job × Except PyErr (JValue × JValue))),
      InsertJobs.runIngestJobs (InsertJobs.runIngestJobs db l) l =
        InsertJobs.runIngestJobs db l) ∧
    (∀ (db : List Job) (l : List (Job × Except PyErr (JValue × JValue))),
      Scraps.runIngestScraps (Scraps.runIngestScraps db l) l =
        Scraps.runIngestScraps db l) := by
  refine ⟨?_, ?_, ?_⟩ <;> intro db l
  · simp only [runIngestIdeas_eq_genRun]
    exact genRun_idem _ _ _ db l
  · simp only [runIngestJobs_eq_genRun]
    exact genRun_idem _ _ _ db l
  · simp only [runIngestScraps_eq_genRun]
    exact genRun_idem _ _ _ db l

/-! ## Gate failure behaviour -/

theorem callOllamaLoop_allFail (attempts : Nat → HttpAttempt) :
    ∀ (n i : Nat),
      (∀ j, i ≤ j → j < i + n → attemptFails (attempts j) = true) →
      callOllamaLoop attempts i n = ollamaFailDefault := by
  intro n
  induction n with
  | zero => intro i _; rfl
  | succ m ih =>
    intro i h
    have hi := h i le_rfl (by omega)
    have hrest : ∀ j, i + 1 ≤ j → j < (i + 1) + m →
        attemptFails (attempts j) = true :=
      fun j h1 h2 => h j (by omega) (by omega)
    cases hA : attempts i with
    | success body =>
      have hp : processBody body = none := by
        rw [hA] at hi
        simpa [attemptFails, Option.isNone_iff_eq_none] using hi
      simp only [callOllamaLoop, hA, hp]
      exact ih (i + 1) hrest
    | timeout =>
      simp only [callOllamaLoop, hA]
      exact ih (i + 1) hrest
    | otherError =>
      simp only [callOllamaLoop, hA]
      exact ih (i + 1) hrest
    | badStatus =>
      simp only [callOllamaLoop, hA]
      exact ih (i + 1) hrest

/-- When both attempts fail, `call_ollama` returns the fail-safe default. -/
theorem call_ollama_allFail (attempts : Nat → HttpAttempt)
    (h : ∀ i, i < 2 → attemptFails (attempts i) = true) :
    call_ollama 2 attempts = ollamaFailDefault :=
  callOllamaLoop_allFail attempts 2 0 (fun j _ h2 => h j (by omega))

/-- When both attempts fail, the Ollama gate reports a rejection with the
fail-safe reason — no exception. -/
theorem validate_job_allFail (attempts : Nat → HttpAttempt)
    (h : ∀ i, i < 2 → attemptFails (attempts i) = true) :
    validate_job_with_llm attempts =
      .ok (.jbool false, .jstr ("LLM call failed").toList) := by
  unfold validate_job_with_llm
  rw [call_ollama_allFail attempts h]
  rfl

theorem cleanupCollect_subset_rejected
    (l : List (Nat × Except PyErr (JValue × JValue))) :
    ∀ (acc : List Nat) (i : Nat),
      i ∈ l.foldl CleanupIdeas.cleanupStep acc →
      i ∈ acc ∨ ∃ v r, (i, Except.ok (v, r)) ∈ l ∧ pyTruthy v = false := by
  induction l with
  | nil => intro acc i h; exact .inl h
  | cons p rest ih =>
    intro acc i h
    rcases ih _ i h with hstep | ⟨v, r, hm, hv⟩
    · obtain ⟨pid, g⟩ := p
      match g with
      | .error e => exact .inl hstep
      | .ok (v, r) =>
        by_cases hv : pyTruthy v = true
        · left
          simpa [CleanupIdeas.cleanupStep, hv] using hstep
        · have hv2 : pyTruthy v = false := by simpa using hv
          simp [CleanupIdeas.cleanupStep, hv2] at hstep
          rcases hstep with ha | hone
          · exact .inl ha
          · right
            refine ⟨v, r, ?_, hv2⟩
            subst hone
            exact List.mem_cons_self _ _
    · exact .inr ⟨v, r, List.mem_cons_of_mem p hm, hv⟩

/-- C1 — Fail-safe asymmetry of the Gate.  Fresh ingestion: a gate call that
raises (insert_ideas.py, and the AttributeError path of the job gates) or a
gate whose two Ollama attempts all fail (timeout / error / non-200 /
unparseable output) leaves the store unchanged — the candidate is treated as
rejected and never inserted, in all three ingestion loops.  Cleanup: every id
in the collected delete set comes from a gate call that returned normally
with a falsy verdict — a raised gate exception never contributes an id, so a
failing LLM call keeps the record. -/
theorem c1_failsafe_asymmetry :
    (∀ (db : List Idea) (c : Idea) (e : PyErr),
      InsertIdeas.ideaIngestStep db c (.error e) = db) ∧
    (∀ (db : List Job) (c : Job) (e : PyErr),
      InsertJobs.jobIngestStep db c (.error e) = db) ∧
    (∀ (db : List Job) (c : Job) (attempts : Nat → HttpAttempt),
      (∀ i, i < 2 → attemptFails (attempts i) = true) →
      InsertJobs.jobIngestStep db c (validate_job_with_llm attempts) = db) ∧
    (∀ (db : List Job) (c : Job) (attempts : Nat → HttpAttempt),
      (∀ i, i < 2 → attemptFails (attempts i) = true) →
      Scraps.scrapsIngestStep db c (validate_job_with_llm attempts) = db) ∧
    (∀ (l : List (Nat × Except PyErr (JValue × JValue))) (i : Nat),
      i ∈ CleanupIdeas.cleanupCollect l →
      ∃ v r, (i, Except.ok (v, r)) ∈ l ∧ pyTruthy v = false) := by
  refine ⟨fun _ _ _ => rfl, fun _ _ _ => rfl, ?_, ?_, ?_⟩
  · intro db c attempts h
    rw [validate_job_allFail attempts h]
    rfl
  · intro db c attempts h
    rw [validate_job_allFail attempts h]
    by_cases hc : c.title.isEmpty
    · simp [Scraps.scrapsIngestStep, hc]
    · simp [Scraps.scrapsIngestStep, hc, pyTruthy]
  · intro l i h
    rcases cleanupCollect_subset_rejected l [] i h with hin | hex
    · simp at hin
    · exact hex

/-- A concrete idea candidate, for witnesses. -/
def sampleIdea : Idea :=
  { title := ("A CRM for dentists").toList
    description := ("Scheduling and billing in one tool").toList
    difficulty := none
    effort_est := none
    monetization := none
    source := ("Reddit r/SaaS").toList
    date_found := none
    notes := none }

/-- A concrete job candidate, for witnesses. -/
def sampleJob : Job :=
  { title := ("Backend Engineer").toList
    company := some ("Acme Corp").toList
    description := ("Build APIs").toList
    salary := none
    job_type := none
    location := ("Remote").toList
    source := ("Remotive").toList
    url := ("https://example.com/job").toList }

/-- Witness for C1 at concrete inputs: a raised gate and a doubly-timed-out
Ollama gate store nothing in any ingestion flow, and the only id the cleanup
loop collects on a one-row run came from an explicit falsy verdict. -/
theorem c1_failsafe_asymmetry_witness :
    InsertIdeas.ideaIngestStep [] sampleIdea (.error .jsonDecodeError) = [] ∧
    InsertJobs.jobIngestStep [] sampleJob (.error .jsonDecodeError) = [] ∧
    InsertJobs.jobIngestStep [] sampleJob
      (validate_job_with_llm fun _ => .timeout) = [] ∧
    Scraps.scrapsIngestStep [] sampleJob
      (validate_job_with_llm fun _ => .timeout) = [] ∧
    (∃ v r, ((5 : Nat), (Except.ok (v, r) : Except PyErr (JValue × JValue))) ∈
        [((5 : Nat),
          (Except.ok ((JValue.jbool false), (JValue.jstr []))
            : Except PyErr (JValue × JValue)))] ∧
      pyTruthy v = false) :=
  ⟨c1_failsafe_asymmetry.1 [] sampleIdea .jsonDecodeError,
   c1_failsafe_asymmetry.2.1 [] sampleJob .jsonDecodeError,
   c1_failsafe_asymmetry.2.2.1 [] sampleJob _ (fun _ _ => rfl),
   c1_failsafe_asymmetry.2.2.2.1 [] sampleJob _ (fun _ _ => rfl),
   c1_failsafe_asymmetry.2.2.2.2 _ 5 (by decide)⟩

/-- C7 — The cleanup pass mutates nothing unless the operator's input,
stripped and lowercased, is exactly `yes`; with an empty reject set the run
mutates nothing regardless; and on affirmative confirmation exactly the
collected reject ids are deleted in the single DELETE statement. -/
theorem c7_cleanup_confirmation :
    (∀ (db : List (Nat × Idea)) (td : List Nat) (c : PyStr),
      pyLower (pyStrip c) ≠ ("yes").toList →
      CleanupIdeas.cleanupFinal db td c = db) ∧
    (∀ (db : List (Nat × Idea)) (c : PyStr),
      CleanupIdeas.cleanupFinal db [] c = db) ∧
    (∀ (db : List (Nat × Idea)) (td : List Nat) (c : PyStr),
      td.isEmpty = false → pyLower (pyStrip c) = ("yes").toList →
      CleanupIdeas.cleanupFinal db td c = CleanupIdeas.deleteIds db td) := by
  refine ⟨?_, ?_, ?_⟩
  · intro db td c h
    unfold CleanupIdeas.cleanupFinal
    by_cases ht : td.isEmpty
    · rw [if_pos ht]
    · rw [if_neg ht, if_neg h]
  · intro db c
    rfl
  · intro db td c ht hc
    unfold CleanupIdeas.cleanupFinal
    rw [if_neg (by simp [ht]), if_pos hc]

/-- Witness for C7 at concrete inputs: `"no"` and an empty reject set leave
the table unchanged; `" YES "` (stripped, lowercased) deletes the collected
id. -/
theorem c7_cleanup_confirmation_witness :
    CleanupIdeas.cleanupFinal [(1, sampleIdea)] [1] ("no").toList =
      [(1, sampleIdea)] ∧
    CleanupIdeas.cleanupFinal [(1, sampleIdea)] [] ("yes").toList =
      [(1, sampleIdea)] ∧
    CleanupIdeas.cleanupFinal [(1, sampleIdea)] [1] (" YES ").toList = [] := by
  refine ⟨c7_cleanup_confirmation.1 _ _ _ (by decide),
    c7_cleanup_confirmation.2.1 _ _, ?_⟩
  rw [c7_cleanup_confirmation.2.2 _ _ _ (by decide) (by decide)]
  rfl

/-! ## At-most-one Analysis -/

theorem nodupKeysAppend {α : Type} (db : List (Nat × α)) (row : Nat × α)
    (hfresh : (db.any fun r => decide (r.1 = row.1)) = false)
    (hnd : (db.map Prod.fst).Nodup) :
    ((db ++ [row]).map Prod.fst).Nodup := by
  have hnotin : row.1 ∉ db.map Prod.fst := by
    intro hmem
    obtain ⟨r, hr, hk⟩ := List.mem_map.mp hmem
    have : db.any (fun r => decide (r.1 = row.1)) = true :=
      List.any_eq_true.mpr ⟨r, hr, by simp [hk]⟩
    rw [this] at hfresh
    exact Bool.noConfusion hfresh
  rw [List.map_append]
  refine List.Nodup.append hnd (List.nodup_singleton _) ?_
  intro a ha hb
  simp only [List.map_cons, List.map_nil, List.mem_singleton] at hb
  exact hnotin (hb ▸ ha)

theorem idea_analysis_insert_ok_shape (db : List (Nat × List JValue))
    (row : Nat × List JValue) (db2 : List (Nat × List JValue))
    (h : InsertIdeas.idea_analysis_insert db row = .ok db2) :
    db2 = db ++ [row] ∧ (db.any fun r => decide (r.1 = row.1)) = false := by
  unfold InsertIdeas.idea_analysis_insert at h
  by_cases hany : (db.any fun r => decide (r.1 = row.1)) = true
  · rw [if_pos hany] at h
    simp at h
  · rw [if_neg hany] at h
    simp at h
    simp only [Bool.not_eq_true] at hany
    exact ⟨h.symm, hany⟩

theorem job_analysis_insert_ok_shape (db : List (Nat × List JValue))
    (row : Nat × List JValue) (db2 : List (Nat × List JValue))
    (h : InsertJobs.job_analysis_insert db row = .ok db2) :
    db2 = db ++ [row] ∧ (db.any fun r => decide (r.1 = row.1)) = false := by
  unfold InsertJobs.job_analysis_insert at h
  by_cases hany : (db.any fun r => decide (r.1 = row.1)) = true
  · rw [if_pos hany] at h
    simp at h
  · rw [if_neg hany] at h
    simp at h
    simp only [Bool.not_eq_true] at hany
    exact ⟨h.symm, hany⟩

theorem ideasAttach_nodup (db : List (Nat × List JValue)) (idea_id : Nat)
    (a : JValue) (hnd : (db.map Prod.fst).Nodup) :
    ((match InsertIdeas.ideasAttach db idea_id a with
      | .error _ => db
      | .ok db2 => db2).map Prod.fst).Nodup := by
  cases hA : InsertIdeas.ideasAttach db idea_id a with
  | error e => exact hnd
  | ok db2 =>
    unfold InsertIdeas.ideasAttach at hA
    cases hE : extractRequired a requiredIdeaKeys with
    | error e => rw [hE] at hA; simp at hA
    | ok vs =>
      rw [hE] at hA
      obtain ⟨hshape, hfresh⟩ := idea_analysis_insert_ok_shape db _ db2 hA
      rw [hshape]
      exact nodupKeysAppend db _ hfresh hnd

theorem scraps_insert_nodup (db : List (Nat × List (Option JValue)))
    (row : Nat × List (Option JValue)) (hnd : (db.map Prod.fst).Nodup) :
    ((Scraps.job_analysis_insert db row).map Prod.fst).Nodup := by
  unfold Scraps.job_analysis_insert
  by_cases hany : (db.any fun r => decide (r.1 = row.1)) = true
  · rw [if_pos hany]
    exact hnd
  · rw [if_neg hany]
    simp only [Bool.not_eq_true] at hany
    exact nodupKeysAppend db _ hany hnd

/-- C3 counterexample — in insert_ideas.py (and identically insert_jobs.py),
a conflicting analysis insert for a record that already has an analysis row
is a raised unique-constraint violation, not a no-op: the claim's "no-op,
not an error" fails on these call sites. -/
theorem c3_conflicting_insert_errors :
    InsertIdeas.idea_analysis_insert [(1, [JValue.jstr []])]
      (1, [JValue.jnull]) = .error .uniqueViolation ∧
    InsertJobs.job_analysis_insert [(1, [JValue.jstr []])]
      (1, [JValue.jnull]) = .error .uniqueViolation := ⟨rfl, rfl⟩

/-- C3 (amended) — For every record id, each analysis flow maintains at most
one Analysis row per record (key-uniqueness of the analysis table is
preserved by every step).  A conflicting insert is a no-op and not an error
only in scraps.py (`ON CONFLICT (job_id) DO NOTHING`); in insert_ideas.py
and insert_jobs.py it raises a unique-constraint violation, which the
per-record handler catches and rolls back, leaving the store unchanged. -/
theorem c3_at_most_one_amended :
    (∀ (db : List (Nat × List JValue)) (idea_id : Nat)
        (res : Except PyErr JValue), (db.map Prod.fst).Nodup →
      ((InsertIdeas.analyze_ideas_step db idea_id res).map Prod.fst).Nodup) ∧
    (∀ (db : List (Nat × List JValue)) (job_id : Nat)
        (attempts : Nat → HttpAttempt), (db.map Prod.fst).Nodup →
      ((InsertJobs.analyze_jobs_step db job_id attempts).map Prod.fst).Nodup) ∧
    (∀ (db : List (Nat × List (Option JValue))) (job_id : Nat)
        (attempts : Nat → HttpAttempt), (db.map Prod.fst).Nodup →
      ((Scraps.analyze_jobs_step db job_id attempts).map Prod.fst).Nodup) ∧
    (∀ (db : List (Nat × List (Option JValue)))
        (row : Nat × List (Option JValue)),
      (db.any fun r => decide (r.1 = row.1)) = true →
      Scraps.job_analysis_insert db row = db) ∧
    (∀ (db : List (Nat × List JValue)) (row : Nat × List JValue),
      (db.any fun r => decide (r.1 = row.1)) = true →
      InsertIdeas.idea_analysis_insert db row = .error .uniqueViolation ∧
      InsertJobs.job_analysis_insert db row = .error .uniqueViolation) ∧
    (∀ (db : List (Nat × List JValue)) (idea_id : Nat)
        (res : Except PyErr JValue),
      (db.any fun r => decide (r.1 = idea_id)) = true →
      InsertIdeas.analyze_ideas_step db idea_id res = db) ∧
    (∀ (db : List (Nat × List JValue)) (job_id : Nat)
        (attempts : Nat → HttpAttempt),
      (db.any fun r => decide (r.1 = job_id)) = true →
      InsertJobs.analyze_jobs_step db job_id attempts = db) := by
  refine ⟨?_, ?_, ?_, ?_, ?_, ?_, ?_⟩
  · intro db idea_id res hnd
    cases res with
    | error e => exact hnd
    | ok a => exact ideasAttach_nodup db idea_id a hnd
  · intro db job_id attempts hnd
    unfold InsertJobs.analyze_jobs_step
    cases hA : InsertJobs.jobsAttach db job_id (call_ollama 2 attempts) with
    | error e => exact hnd
    | ok db2 =>
      unfold InsertJobs.jobsAttach at hA
      cases hE : extractRequired (call_ollama 2 attempts) requiredJobKeys with
      | error e => rw [hE] at hA; simp at hA
      | ok vs =>
        rw [hE] at hA
        obtain ⟨hshape, hfresh⟩ := job_analysis_insert_ok_shape db _ db2 hA
        rw [hshape]
        exact nodupKeysAppend db _ hfresh hnd
  · intro db job_id attempts hnd
    unfold Scraps.analyze_jobs_step Scraps.scrapsAttach
    cases hG : pyGetAll (call_ollama 2 attempts) requiredJobKeys with
    | error e => exact hnd
    | ok vs => exact scraps_insert_nodup db (job_id, vs) hnd
  · intro db row hany
    unfold Scraps.job_analysis_insert
    rw [if_pos hany]
  · intro db row hany
    constructor
    · unfold InsertIdeas.idea_analysis_insert
      rw [if_pos hany]
    · unfold InsertJobs.job_analysis_insert
      rw [if_pos hany]
  · intro db idea_id res hany
    cases res with
    | error e => rfl
    | ok a =>
      show (match InsertIdeas.ideasAttach db idea_id a with
        | .error _ => db
        | .ok db2 => db2) = db
      unfold InsertIdeas.ideasAttach
      cases hE : extractRequired a requiredIdeaKeys with
      | error e => rfl
      | ok vs =>
        have hany2 : (db.any fun r => decide (r.1 = (idea_id, vs).1)) = true :=
          hany
        unfold InsertIdeas.idea_analysis_insert
        simp [hany2]
  · intro db job_id attempts hany
    unfold InsertJobs.analyze_jobs_step InsertJobs.jobsAttach
    cases hE : extractRequired (call_ollama 2 attempts) requiredJobKeys with
    | error e => rfl
    | ok vs =>
      have hany2 : (db.any fun r => decide (r.1 = (job_id, vs).1)) = true :=
        hany
      unfold InsertJobs.job_analysis_insert
      simp [hany2]

/-- Witness for C3 (amended) at concrete inputs. -/
theorem c3_at_most_one_amended_witness :
    ((InsertIdeas.analyze_ideas_step [(1, [JValue.jnull])] 2
        (.error .jsonDecodeError)).map Prod.fst).Nodup ∧
    ((InsertJobs.analyze_jobs_step [(1, [JValue.jnull])] 2
        (fun _ => .timeout)).map Prod.fst).Nodup ∧
    ((Scraps.analyze_jobs_step [(1, [some JValue.jnull])] 2
        (fun _ => .timeout)).map Prod.fst).Nodup ∧
    Scraps.job_analysis_insert [(7, [])] (7, [some JValue.jnull]) =
      [(7, [])] ∧
    (InsertIdeas.idea_analysis_insert [(7, [JValue.jnull])] (7, []) =
        .error .uniqueViolation ∧
      InsertJobs.job_analysis_insert [(7, [JValue.jnull])] (7, []) =
        .error .uniqueViolation) ∧
    InsertIdeas.analyze_ideas_step [(7, [JValue.jnull])] 7
      (.ok (JValue.jobj [])) = [(7, [JValue.jnull])] ∧
    InsertJobs.analyze_jobs_step [(7, [JValue.jnull])] 7
      (fun _ => .timeout) = [(7, [JValue.jnull])] :=
  ⟨c3_at_most_one_amended.1 _ 2 _ (by decide),
   c3_at_most_one_amended.2.1 _ 2 _ (by decide),
   c3_at_most_one_amended.2.2.1 _ 2 _ (by decide),
   c3_at_most_one_amended.2.2.2.1 _ _ (by decide),
   c3_at_most_one_amended.2.2.2.2.1 _ _ (by decide),
   c3_at_most_one_amended.2.2.2.2.2.1 _ 7 _ (by decide),
   c3_at_most_one_amended.2.2.2.2.2.2 _ 7 _ (by decide)⟩

/-- C4 — code bug in scraps.py's `analyze_jobs`.  When every `call_ollama`
attempt for the analysis call fails (here: timeout on both attempts), the
fail-safe value `{"is_job": False, "reason": "LLM call failed"}` — designed
for the validation gate — flows into the save block, whose `.get` lookups
yield `None` for every analysis key: an all-NULL analysis row is inserted
and committed, so the record permanently leaves the select-unanalyzed
work queue instead of being retried.  The claim's behaviour does hold in
insert_ideas.py (the LLM failure raises, is caught, no row is stored) and in
insert_jobs.py (the `analysis['summary']` subscript on the fail-safe dict
raises KeyError, is caught, no row is stored; the anti-join returns the
record again). -/
theorem c4_scraps_failed_analysis_stores_nulls :
    Scraps.analyze_jobs_step [] 1 (fun _ => .timeout) =
      [(1, [none, none, none, none, none, none, none, none])] ∧
    select_unanalyzed [1]
      ((Scraps.analyze_jobs_step [] 1 (fun _ => .timeout)).map Prod.fst) =
      [] ∧
    InsertIdeas.analyze_ideas_step [] 1 (.error .jsonDecodeError) = [] ∧
    InsertJobs.analyze_jobs_step [] 1 (fun _ => .timeout) = [] ∧
    select_unanalyzed [1]
      ((InsertJobs.analyze_jobs_step [] 1 (fun _ => .timeout)).map Prod.fst) =
      [1] :=
  ⟨rfl, rfl, rfl, rfl, rfl⟩

/-! ## Missing analysis fields -/

theorem extractRequired_error_of_missing (fs : List (PyStr × JValue)) :
    ∀ (keys : List PyStr) (k : PyStr), k ∈ keys → lookupLast fs k = none →
      ∃ e, extractRequired (.jobj fs) keys = .error e := by
  intro keys
  induction keys with
  | nil => intro k hk; simp at hk
  | cons k0 ks ih =>
    intro k hk hnone
    rcases List.mem_cons.mp hk with heq | htail
    · subst heq
      refine ⟨.keyError, ?_⟩
      unfold extractRequired
      simp [pyIndex, hnone]
    · cases hP : pyIndex (.jobj fs) k0 with
      | error e =>
        refine ⟨e, ?_⟩
        unfold extractRequired
        rw [hP]
      | ok v =>
        obtain ⟨e, he⟩ := ih k htail hnone
        refine ⟨e, ?_⟩
        unfold extractRequired
        rw [hP, he]

/-- A concrete analysis reply carrying every required idea field except
`summary`. -/
def c5NoSummary : JValue :=
  .jobj [(("feasibility_score").toList, .jnum ['5']),
         (("market_potential_score").toList, .jnum ['5']),
         (("effort_score").toList, .jnum ['5']),
         (("overall_score").toList, .jnum ['5']),
         (("monetization_suggestion").toList, .jstr ('a' :: [])),
         (("strengths").toList, .jstr ('a' :: [])),
         (("weaknesses").toList, .jstr ('a' :: [])),
         (("verdict").toList, .jstr ("build").toList),
         (("llm_opinion").toList, .jstr ('a' :: []))]

/-- C5 counterexample — in insert_ideas.py, an analysis reply that parses as
a JSON object with every required field except `summary` does not get stored
with a NULL summary: the `analysis['summary']` subscript raises KeyError,
the whole record's analysis fails and no row at all is stored (the record
stays in the unanalyzed work queue). -/
theorem c5_missing_field_fails_record :
    InsertIdeas.analyze_ideas_step [] 7 (.ok c5NoSummary) = [] ∧
    select_unanalyzed [7]
      ((InsertIdeas.analyze_ideas_step [] 7 (.ok c5NoSummary)).map Prod.fst) =
      [7] :=
  ⟨rfl, rfl⟩

/-- C5 (amended) — Null-for-missing-field holds only in scraps.py: its
`.get`-based save block stores exactly the reply's fields, NULL for each
missing one.  In insert_ideas.py and insert_jobs.py a missing required field
raises KeyError during parameter construction, so the whole record's
analysis fails (caught and rolled back; the record is retried on the next
run since it still lacks an analysis row). -/
theorem c5_missing_field_amended :
    (∀ (db : List (Nat × List (Option JValue))) (job_id : Nat)
        (fs : List (PyStr × JValue)),
      (db.any fun r => decide (r.1 = job_id)) = false →
      Scraps.scrapsAttach db job_id (.jobj fs) =
        db ++ [(job_id, requiredJobKeys.map fun k => lookupLast fs k)]) ∧
    (∀ (db : List (Nat × List JValue)) (idea_id : Nat)
        (fs : List (PyStr × JValue)) (k : PyStr),
      k ∈ requiredIdeaKeys → lookupLast fs k = none →
      InsertIdeas.analyze_ideas_step db idea_id (.ok (.jobj fs)) = db) ∧
    (∀ (db : List (Nat × List JValue)) (job_id : Nat)
        (fs : List (PyStr × JValue)) (k : PyStr),
      k ∈ requiredJobKeys → lookupLast fs k = none →
      ∃ e, InsertJobs.jobsAttach db job_id (.jobj fs) = .error e) := by
  refine ⟨?_, ?_, ?_⟩
  · intro db job_id fs hfresh
    show Scraps.job_analysis_insert db
      (job_id, requiredJobKeys.map fun k => lookupLast fs k) = _
    unfold Scraps.job_analysis_insert
    rw [if_neg (by simp [hfresh])]
  · intro db idea_id fs k hk hnone
    obtain ⟨e, he⟩ := extractRequired_error_of_missing fs requiredIdeaKeys k hk hnone
    show (match InsertIdeas.ideasAttach db idea_id (.jobj fs) with
      | .error _ => db
      | .ok db2 => db2) = db
    unfold InsertIdeas.ideasAttach
    rw [he]
  · intro db job_id fs k hk hnone
    obtain ⟨e, he⟩ := extractRequired_error_of_missing fs requiredJobKeys k hk hnone
    refine ⟨e, ?_⟩
    unfold InsertJobs.jobsAttach
    rw [he]

/-- Witness for C5 (amended) at concrete inputs: a reply carrying only a
`verdict` field. -/
theorem c5_missing_field_amended_witness :
    Scraps.scrapsAttach [] 1
        (.jobj [(("verdict").toList, .jstr ("skip").toList)]) =
      [(1, requiredJobKeys.map fun k =>
        lookupLast [(("verdict").toList, .jstr ("skip").toList)] k)] ∧
    InsertIdeas.analyze_ideas_step [] 7
      (.ok (.jobj [(("verdict").toList, .jstr ("build").toList)])) = [] ∧
    (∃ e, InsertJobs.jobsAttach [] 7
        (.jobj [(("verdict").toList, .jstr ("skip").toList)]) = .error e) :=
  ⟨c5_missing_field_amended.1 [] 1 _ rfl,
   c5_missing_field_amended.2.1 [] 7 _ (("summary").toList) (by decide) rfl,
   c5_missing_field_amended.2.2 [] 7 _ (("summary").toList) (by decide) rfl⟩

/-! ## Bounded retry -/

/-- C6 counterexample — the Anthropic-backed idea gate of insert_ideas.py
performs no retry and has no fail-safe value: on a non-JSON reply the single
strict `json.loads` raises and the decode error propagates out of the gate
call (contradicting "the gate call retries up to the fixed bound of 2
attempts ... and then returns the fail-safe default value; no exception
propagates out of the gate call"). -/
theorem c6_idea_gate_raises :
    InsertIdeas.validate_idea_with_llm ("hello").toList =
      .error .jsonDecodeError := rfl

/-- C6 (amended) — Bounded-retry totality holds for the Ollama-backed gate
(`call_ollama` in insert_jobs.py and scraps.py): when each of its 2 attempts
fails — transport failure, non-200 status, or a reply on which both the
strict JSON parse and the tolerant first-balanced-object extraction fail —
it returns the fail-safe default, and being a total function no exception
propagates out of it.  The Anthropic-backed idea gate, by contrast, performs
no retry: a reply whose fence-stripped text is not JSON raises a decode
error that propagates out of the gate call to the orchestrator (which
catches it per item and skips the candidate). -/
theorem c6_bounded_retry_amended :
    (∀ attempts : Nat → HttpAttempt,
      (∀ i, i < 2 → attemptFails (attempts i) = true) →
      call_ollama 2 attempts = ollamaFailDefault) ∧
    (∀ reply raw : PyStr, stripFences (pyStrip reply) = some raw →
      jsonLoads raw = none →
      InsertIdeas.validate_idea_with_llm reply = .error .jsonDecodeError) := by
  refine ⟨call_ollama_allFail, ?_⟩
  intro reply raw h1 h2
  unfold InsertIdeas.validate_idea_with_llm
  rw [h1]
  simp [h2]

/-- Witness for C6 (amended): a body that is non-JSON text on both attempts
yields the fail-safe default from the Ollama gate, and a non-JSON reply
raises from the idea gate. -/
theorem c6_bounded_retry_amended_witness :
    call_ollama 2 (fun _ => .success ("not json at all").toList) =
      ollamaFailDefault ∧
    InsertIdeas.validate_idea_with_llm ("also not json").toList =
      .error .jsonDecodeError :=
  ⟨c6_bounded_retry_amended.1 _ (fun _ _ => rfl),
   c6_bounded_retry_amended.2 (("also not json").toList)
     (("also not json").toList) rfl rfl⟩

/-! ## Truncation -/

theorem stripTags_all_a (n : Nat) :
    stripTags (List.replicate n 'a') = List.replicate n 'a' := by
  induction n with
  | zero => simp [stripTags]
  | succ m ih =>
    rw [List.replicate_succ]
    unfold stripTags
    rw [if_neg (by decide), ih]

theorem collapseWs_all_a (n : Nat) :
    collapseWs (List.replicate n 'a') = List.replicate n 'a' := by
  induction n with
  | zero => simp [collapseWs]
  | succ m ih =>
    rw [List.replicate_succ]
    unfold collapseWs
    rw [if_neg (by decide), ih]

theorem dropWhileWs_all_a (n : Nat) :
    (List.replicate n 'a').dropWhile pyWsChar = List.replicate n 'a' := by
  cases n with
  | zero => rfl
  | succ m =>
    rw [List.replicate_succ, List.dropWhile_cons]
    rw [if_neg (by decide)]

theorem pyStrip_all_a (n : Nat) :
    pyStrip (List.replicate n 'a') = List.replicate n 'a' := by
  unfold pyStrip
  rw [dropWhileWs_all_a, List.reverse_replicate, dropWhileWs_all_a,
    List.reverse_replicate]

theorem strip_html_all_a (n : Nat) :
    strip_html (List.replicate n 'a') = List.replicate n 'a' := by
  cases n with
  | zero => rfl
  | succ m =>
    unfold strip_html
    rw [if_neg (by simp [List.replicate_succ])]
    rw [stripTags_all_a, collapseWs_all_a, pyStrip_all_a]

/-- A Remotive entry whose (tag-free) description is 2001 characters long. -/
def c8RemotiveLong : InsertJobs.RemotiveItem :=
  { title := ("Engineer").toList
    company_name := []
    description := List.replicate 2001 'a'
    salary := []
    job_type := []
    candidate_required_location := []
    url := [] }

/-- C8 counterexample — `parse_remotive_jobs` in insert_jobs.py applies no
truncation: a parsed job candidate whose HTML-stripped description is 2001
characters long is stored with all 2001 characters, not truncated to exactly
2000. -/
theorem c8_remotive_untruncated :
    (InsertJobs.parse_remotive_jobs [c8RemotiveLong]).map
      (fun j => j.description.length) = [2001] ∧
    (InsertJobs.parse_remotive_jobs [c8RemotiveLong]).map
      (fun j => j.description.length) ≠ [2000] := by
  have h : (InsertJobs.parse_remotive_jobs [c8RemotiveLong]).map
      (fun j => j.description.length) =
      [(strip_html (List.replicate 2001 'a')).length] := rfl
  rw [h, strip_html_all_a, List.length_replicate]
  exact ⟨rfl, by simp⟩

/-- C8 (amended) — The 2000-character truncation is applied by scraps.py's
parsers (`parse_wwr_rss`, `parse_arbeitnow`, and likewise `parse_jobicy`):
every candidate they emit stores `take 2000` of the HTML-stripped body, so a
longer description is stored as exactly 2000 characters.  insert_jobs.py's
`parse_remotive_jobs` (like its other parsers) stores the HTML-stripped
description untruncated. -/
theorem c8_truncation_amended :
    (∀ (item : Scraps.RssItem) (j : Job), Scraps.wwrConvert item = some j →
      j.description.length =
        min 2000 (strip_html (Scraps.wwrBody item)).length) ∧
    (∀ (item : Scraps.ArbeitnowItem) (j : Job),
      Scraps.arbeitnowConvert item = some j →
      j.description.length = min 2000 (strip_html item.description).length) ∧
    (∀ item : InsertJobs.RemotiveItem,
      (InsertJobs.parse_remotive_jobs [item]).map (fun j => j.description) =
        [strip_html item.description]) := by
  refine ⟨?_, ?_, fun item => rfl⟩
  · intro item j h
    simp only [Scraps.wwrConvert] at h
    split at h
    · exact absurd h (by simp)
    · have hd : j.description = (strip_html (Scraps.wwrBody item)).take 2000 := by
        rw [← Option.some.inj h]
      rw [hd, List.length_take]
  · intro item j h
    simp only [Scraps.arbeitnowConvert] at h
    split at h
    · exact absurd h (by simp)
    · split at h
      · exact absurd h (by simp)
      · have hd : j.description = (strip_html item.description).take 2000 := by
          rw [← Option.some.inj h]
        rw [hd, List.length_take]

/-- A WWR RSS item with an employer-prefixed title and a 2001-character body. -/
def c8WwrLong : Scraps.RssItem :=
  { title := ("Acme: Engineer").toList
    link := []
    description := []
    content_encoded := some (List.replicate 2001 'a') }

/-- The candidate `wwrConvert` produces from `c8WwrLong`. -/
def c8WwrJob : Job :=
  { title := ("Engineer").toList
    company := some ("Acme").toList
    description := List.replicate 2000 'a'
    salary := none
    job_type := some ("full-time").toList
    location := ("Remote").toList
    source := ("We Work Remotely").toList
    url := [] }

theorem c8WwrConv : Scraps.wwrConvert c8WwrLong = some c8WwrJob := by
  have hb : strip_html (Scraps.wwrBody c8WwrLong) = List.replicate 2001 'a' :=
    strip_html_all_a 2001
  have ht : (List.replicate 2001 'a').take 2000 = List.replicate 2000 'a' := by
    rw [List.take_replicate, min_eq_left (by norm_num)]
  simp only [Scraps.wwrConvert, hb, ht]
  rfl

/-- A remote Arbeitnow entry with a tech title and a 2001-character
description. -/
def c8ArbLong : Scraps.ArbeitnowItem :=
  { remote := true
    tags := [("devops").toList]
    title := ("Backend Engineer").toList
    company_name := []
    description := List.replicate 2001 'a'
    job_types := []
    location := []
    url := [] }

/-- The candidate `arbeitnowConvert` produces from `c8ArbLong`. -/
def c8ArbJob : Job :=
  { title := ("Backend Engineer").toList
    company := some []
    description := List.replicate 2000 'a'
    salary := none
    job_type := none
    location := []
    source := ("Arbeitnow").toList
    url := [] }

theorem c8ArbConv : Scraps.arbeitnowConvert c8ArbLong = some c8ArbJob := by
  have hb : strip_html c8ArbLong.description = List.replicate 2001 'a' :=
    strip_html_all_a 2001
  have ht : (List.replicate 2001 'a').take 2000 = List.replicate 2000 'a' := by
    rw [List.take_replicate, min_eq_left (by norm_num)]
  simp only [Scraps.arbeitnowConvert, hb, ht]
  rfl

/-- Witness for C8 (amended): both scraps.py parsers store exactly 2000
characters of a 2001-character stripped body; the Remotive parser stores the
stripped description as is. -/
theorem c8_truncation_amended_witness :
    (Scraps.wwrConvert c8WwrLong = some c8WwrJob ∧
      c8WwrJob.description.length = 2000) ∧
    (Scraps.arbeitnowConvert c8ArbLong = some c8ArbJob ∧
      c8ArbJob.description.length = 2000) ∧
    (InsertJobs.parse_remotive_jobs [c8RemotiveLong]).map
      (fun j => j.description) = [strip_html c8RemotiveLong.description] := by
  refine ⟨⟨c8WwrConv, ?_⟩, ⟨c8ArbConv, ?_⟩,
    c8_truncation_amended.2.2 c8RemotiveLong⟩
  · rw [c8_truncation_amended.1 c8WwrLong c8WwrJob c8WwrConv]
    rw [show strip_html (Scraps.wwrBody c8WwrLong) = List.replicate 2001 'a'
      from strip_html_all_a 2001]
    rw [List.length_replicate]
    exact min_eq_left (by norm_num)
  · rw [c8_truncation_amended.2.1 c8ArbLong c8ArbJob c8ArbConv]
    rw [show strip_html c8ArbLong.description = List.replicate 2001 'a'
      from strip_html_all_a 2001]
    rw [List.length_replicate]
    exact min_eq_left (by norm_num)

/-! ## Pre-filter -/

/-- A remote Arbeitnow entry tagged only `["sales","marketing"]` whose title
contains allow-listed keywords. -/
def c9ArbTech : Scraps.ArbeitnowItem :=
  { remote := true
    tags := [("sales").toList, ("marketing").toList]
    title := ("Backend Engineer").toList
    company_name := []
    description := []
    job_types := []
    location := []
    url := [] }

/-- C9 counterexample — `parse_arbeitnow`'s pre-filter keys on the title OR
the tags: a job candidate tagged `["sales","marketing"]` is not excluded
when its title contains an allow-listed keyword; it survives the pre-filter
and proceeds to LLM gating, contradicting the claim that such a candidate is
excluded because no tag is in the allow-list. -/
theorem c9_arbeitnow_title_overrides_tags :
    (Scraps.parse_arbeitnow [c9ArbTech]).length = 1 := rfl

/-- C9 (amended) — In `parse_remoteok_jobs` the claim holds as stated: a
candidate with nonempty tags none of which is in the fixed allow-list
(e.g. `["sales","marketing"]`) is dropped before any LLM call, and
`["devops","aws"]` passes.  In `parse_arbeitnow` the pre-filter is a
substring check over the title and the space-joined tags together: a
remote-flagged `["devops","aws"]` candidate always passes, but a
`["sales","marketing"]` candidate is excluded only when its title also
contains no allow-listed keyword. -/
theorem c9_prefilter_amended :
    (∀ job : InsertJobs.RemoteokItem,
      job.tags = [("sales").toList, ("marketing").toList] →
      InsertJobs.remoteokConvert (some job) = none) ∧
    (∀ job : InsertJobs.RemoteokItem,
      job.tags = [("devops").toList, ("aws").toList] →
      (InsertJobs.remoteokConvert (some job)).isSome = true) ∧
    (∀ item : Scraps.ArbeitnowItem, item.remote = true →
      item.tags = [("devops").toList, ("aws").toList] →
      (Scraps.arbeitnowConvert item).isSome = true) ∧
    (∀ item : Scraps.ArbeitnowItem,
      item.tags = [("sales").toList, ("marketing").toList] →
      (Scraps.tech_keywords.any fun kw =>
        containsSub kw (pyLower item.title)) = false →
      Scraps.arbeitnowConvert item = none) := by
  refine ⟨?_, ?_, ?_, ?_⟩
  · intro job h
    simp only [InsertJobs.remoteokConvert, h]
    rfl
  · intro job h
    simp only [InsertJobs.remoteokConvert, h]
    rfl
  · intro item hr ht
    have hkw : (Scraps.tech_keywords.any fun kw =>
        containsSub kw (pyLower item.title) ||
        containsSub kw (pyLower (pyJoin [' '] item.tags))) = true := by
      apply List.any_eq_true.mpr
      refine ⟨("devops").toList, by decide, ?_⟩
      rw [ht]
      rw [show containsSub ("devops").toList
        (pyLower (pyJoin [' '] [("devops").toList, ("aws").toList])) = true
        from by decide]
      rw [Bool.or_true]
    simp only [Scraps.arbeitnowConvert, hr, hkw]
    rfl
  · intro item ht htitle
    have htag : ∀ kw ∈ Scraps.tech_keywords,
        containsSub kw (pyLower (pyJoin [' '] item.tags)) = false := by
      rw [ht]
      decide
    have hkw : (Scraps.tech_keywords.any fun kw =>
        containsSub kw (pyLower item.title) ||
        containsSub kw (pyLower (pyJoin [' '] item.tags))) = false := by
      rw [Bool.eq_false_iff]
      intro hc
      obtain ⟨kw, hmem, hor⟩ := List.any_eq_true.mp hc
      rcases (Bool.or_eq_true _ _).mp hor with h1 | h2
      · have h3 : (Scraps.tech_keywords.any fun kw =>
            containsSub kw (pyLower item.title)) = true :=
          List.any_eq_true.mpr ⟨kw, hmem, h1⟩
        rw [htitle] at h3
        exact Bool.noConfusion h3
      · have h4 := htag kw hmem
        rw [h2] at h4
        exact Bool.noConfusion h4
    by_cases hr : item.remote = true
    · simp only [Scraps.arbeitnowConvert, hr, hkw]
      rfl
    · have hr2 : item.remote = false := by simpa using hr
      simp only [Scraps.arbeitnowConvert, hr2]
      rfl

/-- A RemoteOK entry tagged `["sales","marketing"]`. -/
def c9RemoteokSales : InsertJobs.RemoteokItem :=
  { tags := [("sales").toList, ("marketing").toList]
    position := []
    company := []
    description := []
    salary_min := none
    salary_max := none
    location := []
    url := [] }

/-- A RemoteOK entry tagged `["devops","aws"]`. -/
def c9RemoteokDev : InsertJobs.RemoteokItem :=
  { tags := [("devops").toList, ("aws").toList]
    position := []
    company := []
    description := []
    salary_min := none
    salary_max := none
    location := []
    url := [] }

/-- A remote Arbeitnow entry tagged `["devops","aws"]` with an empty title. -/
def c9ArbDev : Scraps.ArbeitnowItem :=
  { remote := true
    tags := [("devops").toList, ("aws").toList]
    title := []
    company_name := []
    description := []
    job_types := []
    location := []
    url := [] }

/-- A remote Arbeitnow entry tagged `["sales","marketing"]` with an empty
title. -/
def c9ArbSales : Scraps.ArbeitnowItem :=
  { remote := true
    tags := [("sales").toList, ("marketing").toList]
    title := []
    company_name := []
    description := []
    job_types := []
    location := []
    url := [] }

/-- Witness for C9 (amended) at concrete entries. -/
theorem c9_prefilter_amended_witness :
    InsertJobs.remoteokConvert (some c9RemoteokSales) = none ∧
    (InsertJobs.remoteokConvert (some c9RemoteokDev)).isSome = true ∧
    (Scraps.arbeitnowConvert c9ArbDev).isSome = true ∧
    Scraps.arbeitnowConvert c9ArbSales = none :=
  ⟨c9_prefilter_amended.1 _ rfl,
   c9_prefilter_amended.2.1 _ rfl,
   c9_prefilter_amended.2.2.1 _ rfl rfl,
   c9_prefilter_amended.2.2.2 _ rfl (by decide)⟩

/-! ## A field-less gate reply -/

/-- The reply text `{"reason": "x"}`: a JSON object with no verdict field but
a nonempty reason. -/
def c10Reply : PyStr := ("\x7b\"reason\": \"x\"\x7d").toList

/-- C10 counterexample — a reply that parses as a JSON object lacking the
verdict field is indeed gated as a rejection (accept = False), but the
reason is not `""`: the reply's own `"reason"` value is passed through. -/
theorem c10_reason_not_empty :
    InsertIdeas.validate_idea_with_llm c10Reply =
      .ok (.jbool false, .jstr ['x']) ∧
    JValue.jstr ['x'] ≠ JValue.jstr [] := by
  refine ⟨rfl, ?_⟩
  intro h
  injection h with h2
  simp at h2

theorem call_ollama_first_success (attempts : Nat → HttpAttempt)
    (body : PyStr) (v : JValue) (h0 : attempts 0 = .success body)
    (hp : processBody body = some v) : call_ollama 2 attempts = v := by
  simp only [call_ollama, callOllamaLoop, h0, hp]

/-- C10 (amended) — For every LLM reply that parses as a JSON object lacking
the verdict field (`is_idea` for the idea gates of insert_ideas.py and
cleanup_ideas.py, `is_job` for the Ollama job gate), the gate returns
accept = False; the reason is the reply's `"reason"` field when present and
`""` only when that field is missing too. -/
theorem c10_missing_verdict_amended :
    (∀ (reply raw : PyStr) (fs : List (PyStr × JValue)),
      stripFences (pyStrip reply) = some raw →
      jsonLoads raw = some (.jobj fs) →
      lookupLast fs ("is_idea").toList = none →
      InsertIdeas.validate_idea_with_llm reply =
        .ok (.jbool false,
          (lookupLast fs ("reason").toList).getD (.jstr [])) ∧
      CleanupIdeas.validate_idea_with_llm reply =
        .ok (.jbool false,
          (lookupLast fs ("reason").toList).getD (.jstr []))) ∧
    (∀ (attempts : Nat → HttpAttempt) (body : PyStr)
        (fs : List (PyStr × JValue)),
      attempts 0 = .success body →
      processBody body = some (.jobj fs) →
      lookupLast fs ("is_job").toList = none →
      validate_job_with_llm attempts =
        .ok (.jbool false,
          (lookupLast fs ("reason").toList).getD (.jstr []))) := by
  constructor
  · intro reply raw fs h1 h2 hnone
    have hmain : InsertIdeas.validate_idea_with_llm reply =
        .ok (.jbool false,
          (lookupLast fs ("reason").toList).getD (.jstr [])) := by
      unfold InsertIdeas.validate_idea_with_llm
      rw [h1]
      simp only [h2, pyGet, hnone]
      rfl
    exact ⟨hmain, hmain⟩
  · intro attempts body fs h0 hp hnone
    unfold validate_job_with_llm
    rw [call_ollama_first_success attempts body _ h0 hp]
    simp only [pyGet, hnone]
    rfl

/-- Witness for C10 (amended) at the concrete reply `{"a": 1}` (no verdict
field, no reason field): both gate families return (False, ""). -/
theorem c10_missing_verdict_amended_witness :
    InsertIdeas.validate_idea_with_llm ("\x7b\"a\": 1\x7d").toList =
      .ok (.jbool false, .jstr []) ∧
    CleanupIdeas.validate_idea_with_llm ("\x7b\"a\": 1\x7d").toList =
      .ok (.jbool false, .jstr []) ∧
    validate_job_with_llm
      (fun _ => .success ("\x7b\"a\": 1\x7d").toList) =
      .ok (.jbool false, .jstr []) :=
  ⟨(c10_missing_verdict_amended.1 (("\x7b\"a\": 1\x7d").toList)
      (("\x7b\"a\": 1\x7d").toList) [(('a' :: []), .jnum ['1'])]
      rfl rfl rfl).1,
   (c10_missing_verdict_amended.1 (("\x7b\"a\": 1\x7d").toList)
      (("\x7b\"a\": 1\x7d").toList) [(('a' :: []), .jnum ['1'])]
      rfl rfl rfl).2,
   c10_missing_verdict_amended.2
      (fun _ => .success ("\x7b\"a\": 1\x7d").toList)
      (("\x7b\"a\": 1\x7d").toList) [(('a' :: []), .jnum ['1'])]
      rfl rfl rfl⟩
